import Mathlib

/-!
Verification of the Spotify listening-history viewer
(`spotify_viewer.py`): shallow embedding of the validation,
normalization, aggregation and report-formatting pipeline, followed by
theorems settling the specification claims.

JSON values are modelled by `JValue`; Python dictionaries by
association lists (`Record`).  Python's `type(x) != type(y)` check
becomes comparison of `kindOf` values, under which a boolean value and
a plain integer have different kinds, exactly as `type(True) != type(0)`
in the source language.  Fallible code (dictionary key errors,
`strptime` failures) is modelled with `Option`.
-/

-- === Definitions ===========================================================

/-- A JSON value as far as the program distinguishes them. -/
inductive JValue where
  | str (s : String)
  | int (n : Int)
  | bool (b : Bool)
  | null
deriving DecidableEq

/-- The value kind, mirroring Python's `type(...)`: `bool` is a distinct
kind from `int`, as `type(True) == bool ≠ int`. -/
inductive Kind where
  | kstr
  | kint
  | kbool
  | knull
deriving DecidableEq

def kindOf : JValue → Kind
  | .str _ => .kstr
  | .int _ => .kint
  | .bool _ => .kbool
  | .null => .knull

/-- A Python dict with `JValue` values: an insertion-ordered association list. -/
abbrev Record := List (String × JValue)

/-- `entry[key]` as an `Option` (Python raises `KeyError` when absent). -/
def lookup (k : String) : Record → Option JValue
  | [] => none
  | (k', v) :: rest => if k' = k then some v else lookup k rest

/-- `entry[key] = v`: replace the binding in place, or append a new one,
as Python dict assignment does. -/
def setField (e : Record) (k : String) (v : JValue) : Record :=
  match e with
  | [] => [(k, v)]
  | (k', v') :: rest => if k' = k then (k', v) :: rest else (k', v') :: setField rest k v

/-- `set(entry.keys()) == set(template_keys)` from the source:
mutual inclusion of the key lists. -/
def keysMatch (e : Record) (tkeys : List String) : Bool :=
  decide ((∀ k ∈ e.map Prod.fst, k ∈ tkeys) ∧ (∀ k ∈ tkeys, k ∈ e.map Prod.fst))

/-- The inner loop of `validate_content`: walk the template keys and
return the first key whose value kind in `e` differs from the kind in
the template record (the source logs that key and returns `False`
immediately).  Returns `none` when every key matches. -/
def checkTypes (e tmpl : Record) : List String → Option String
  | [] => none
  | k :: rest =>
    match lookup k e, lookup k tmpl with
    | some v, some tv => if kindOf v = kindOf tv then checkTypes e tmpl rest else some k
    | _, _ => some k

/-- One diagnostic message of `validate_content` (the `logger.error` calls). -/
inductive Diag where
  | emptyInput
  | keyMismatch (index : Nat)
  | typeMismatch (index : Nat) (key : String)
deriving DecidableEq

/-- Outcome of validation: the returned boolean plus the error
diagnostics emitted on the way. -/
structure VResult where
  ok : Bool
  diags : List Diag
deriving DecidableEq

/-- The `for index, entry in enumerate(content)` loop of
`validate_content`, starting at index `i`. -/
def validateFrom (tmpl : Record) (tkeys : List String) (i : Nat) : List Record → VResult
  | [] => ⟨true, []⟩
  | e :: rest =>
    if keysMatch e tkeys then
      match checkTypes e tmpl tkeys with
      | some k => ⟨false, [.typeMismatch i k]⟩
      | none => validateFrom tmpl tkeys (i + 1) rest
    else ⟨false, [.keyMismatch i]⟩

/-- `validate_content(content, template)` from the source: rejects empty
content or template, then checks each entry's key set and value kinds
against `template[0]`. -/
def validate_content (content : List Record) (template : List Record) : VResult :=
  match content, template with
  | [], _ => ⟨false, [.emptyInput]⟩
  | _, [] => ⟨false, [.emptyInput]⟩
  | c :: cs, t0 :: _ => validateFrom t0 (t0.map Prod.fst) 0 (c :: cs)

/-- The single record inside `TEMPLATE`: the four expected fields with
prototypical values giving the expected kinds. -/
def tmpl0 : Record :=
  [("endTime", .str ""), ("artistName", .str ""), ("trackName", .str ""), ("msPlayed", .int 0)]

/-- `TEMPLATE` from the source: a one-record list. -/
def TEMPLATE : List Record := [tmpl0]

/-- Run `f` over a list, failing at the first element on which `f`
fails, as a Python loop raising an exception would. -/
def mapOrFail (f : α → Option β) : List α → Option (List β)
  | [] => some []
  | x :: xs =>
    match f x with
    | none => none
    | some y => (mapOrFail f xs).map (y :: ·)

/-- `acc[k] += v` on a `defaultdict(int)` / `Counter`: update the
existing binding in place, or append a fresh one (insertion order kept). -/
def addTo : List (JValue × Int) → JValue → Int → List (JValue × Int)
  | [], k, v => [(k, v)]
  | (k', v') :: rest, k, v =>
    if k' = k then (k', v' + v) :: rest else (k', v') :: addTo rest k v

/-- Accumulate a list of (key, value) pairs into per-key sums, keys in
first-seen order, as `defaultdict(int)` / `Counter` does. -/
def tallyKV (kvs : List (JValue × Int)) : List (JValue × Int) :=
  kvs.foldl (fun acc kv => addTo acc kv.1 kv.2) []

/-- Insert into a descending-sorted list, after every earlier element of
score at least as large: the insertion step of a stable descending sort,
matching `sorted(..., reverse=True)` / `Counter.most_common`. -/
def insertDesc (x : JValue × Int) : List (JValue × Int) → List (JValue × Int)
  | [] => [x]
  | y :: ys => if x.2 < y.2 then y :: insertDesc x ys else x :: y :: ys

/-- Stable sort by score descending. -/
def sortDesc : List (JValue × Int) → List (JValue × Int)
  | [] => []
  | x :: xs => insertDesc x (sortDesc xs)

/-- `most_played_freq(content, top_n)`: count track names and return the
`top_n` most common, ties in first-seen order. -/
def most_played_freq (content : List Record) (top_n : Nat := 10) :
    Option (List (JValue × Int)) :=
  (mapOrFail (lookup "trackName") content).map fun track_names =>
    (sortDesc (tallyKV (track_names.map fun k => (k, 1)))).take top_n

/-- The number a `+=`-accumulation accepts for a `JValue`: Python adds
booleans as 0/1 since `bool` is an `int` subclass; anything else raises. -/
def asNum : JValue → Option Int
  | .int n => some n
  | .bool b => some (if b then 1 else 0)
  | _ => none

/-- Loop body of the playtime aggregations: read the key field, read
`msPlayed`, and produce the pair to accumulate. -/
def extractKV (keyField : String) (e : Record) : Option (JValue × Int) :=
  match lookup keyField e with
  | none => none
  | some k =>
    match lookup "msPlayed" e with
    | none => none
    | some v => (asNum v).map fun n => (k, n)

/-- `most_played_by_playtime(content, top_n)`: sum `msPlayed` per track
name, stable-sort descending, take `top_n`. -/
def most_played_by_playtime (content : List Record) (top_n : Nat := 10) :
    Option (List (JValue × Int)) :=
  (mapOrFail (extractKV "trackName") content).map fun kvs =>
    (sortDesc (tallyKV kvs)).take top_n

/-- `top_artist_by_playtime(content, top_n)`: sum `msPlayed` per artist
name, stable-sort descending, take `top_n`. -/
def top_artist_by_playtime (content : List Record) (top_n : Nat := 10) :
    Option (List (JValue × Int)) :=
  (mapOrFail (extractKV "artistName") content).map fun kvs =>
    (sortDesc (tallyKV kvs)).take top_n

/-- `ms_to_min(ms)`: Python floor division and modulo (`//`, `%`), which
on `Int` are `fdiv` and `fmod`. -/
def ms_to_min (ms : Int) : String :=
  toString (Int.fdiv ms 60000) ++ "m " ++ toString (Int.fdiv (Int.fmod ms 60000) 1000) ++ "s"

def recA1 : Record :=
  [("endTime", .str "2023-01-01 10:00"), ("artistName", .str "artistX"),
   ("trackName", .str "trackA"), ("msPlayed", .int 30000)]

def recA2 : Record :=
  [("endTime", .str "2023-01-01 11:00"), ("artistName", .str "artistX"),
   ("trackName", .str "trackA"), ("msPlayed", .int 30000)]

def recB : Record :=
  [("endTime", .str "2023-01-01 12:00"), ("artistName", .str "artistY"),
   ("trackName", .str "trackB"), ("msPlayed", .int 600000)]

def c2content : List Record := [recA1, recA2, recB]

/-- The key list after one `addTo` step: unchanged when the key was
already present, extended at the back otherwise. -/
def insertKey (l : List JValue) (k : JValue) : List JValue :=
  if k ∈ l then l else l ++ [k]

/-- A validated record whose `msPlayed` value is a negative integer. -/
def negRec : Record :=
  [("endTime", .str "2023-01-01 10:00"), ("artistName", .str "a"),
   ("trackName", .str "t"), ("msPlayed", .int (-5))]

/-- A record whose `msPlayed` holds a boolean instead of an integer. -/
def boolRec : Record :=
  [("endTime", .str "2023-01-01 10:00"), ("artistName", .str "a"),
   ("trackName", .str "t"), ("msPlayed", .bool true)]

/-- The number of distinct values a field takes across the records that
have it. -/
def distinctValues (field : String) (content : List Record) : Nat :=
  ((content.filterMap (lookup field)).dedup).length

def digitVal (c : Char) : Nat := c.toNat - '0'.toNat

def expectChar (c : Char) : List Char → Option (List Char)
  | [] => none
  | x :: rest => if x = c then some rest else none

/-- Exactly four digits, as the `%Y` directive of `strptime` accepts. -/
def parse4Digits : List Char → Option (Nat × List Char)
  | a :: b :: c :: d :: rest =>
    if a.isDigit && b.isDigit && c.isDigit && d.isDigit then
      some (1000 * digitVal a + 100 * digitVal b + 10 * digitVal c + digitVal d, rest)
    else none
  | _ => none

/-- A one- or two-digit numeric directive of `strptime`: two digits when
their value satisfies `ok2`, else one digit satisfying `ok1`.  Falling
back to one digit leaves a digit in the stream, which then fails against
the following literal, matching the regex backtracking of `strptime`. -/
def parseField (ok2 ok1 : Nat → Bool) : List Char → Option (Nat × List Char)
  | a :: b :: rest =>
    if a.isDigit && b.isDigit && ok2 (10 * digitVal a + digitVal b) then
      some (10 * digitVal a + digitVal b, rest)
    else if a.isDigit && ok1 (digitVal a) then some (digitVal a, b :: rest)
    else none
  | [a] => if a.isDigit && ok1 (digitVal a) then some (digitVal a, []) else none
  | [] => none

def isSpaceChar (c : Char) : Bool :=
  c = ' ' || c = '\t' || c = '\n' || c = '\r' || c = '\x0b' || c = '\x0c'

def skipSpaces : List Char → List Char
  | c :: rest => if isSpaceChar c then skipSpaces rest else c :: rest
  | [] => []

/-- Whitespace in a `strptime` format string matches one or more
whitespace characters. -/
def parseSpaces1 : List Char → Option (List Char)
  | c :: rest => if isSpaceChar c then some (skipSpaces rest) else none
  | [] => none

def isLeap (y : Nat) : Bool := (y % 4 == 0 && y % 100 != 0) || y % 400 == 0

def daysInMonth (y m : Nat) : Nat :=
  if m = 2 then (if isLeap y then 29 else 28)
  else if m = 4 ∨ m = 6 ∨ m = 9 ∨ m = 11 then 30
  else 31

/-- `datetime.strptime(s, "%Y-%m-%d %H:%M")`: the whole string must
match, value ranges are enforced by the directive patterns, and the
`datetime` constructor additionally requires a positive year and a day
valid for the month. -/
def parse_time (s : String) : Option (Nat × Nat × Nat × Nat × Nat) := do
  let (y, r1) ← parse4Digits s.toList
  let r2 ← expectChar '-' r1
  let (mo, r3) ← parseField (fun n => decide (1 ≤ n ∧ n ≤ 12)) (fun n => decide (1 ≤ n)) r2
  let r4 ← expectChar '-' r3
  let (d, r5) ← parseField (fun n => decide (1 ≤ n ∧ n ≤ 31)) (fun n => decide (1 ≤ n)) r4
  let r6 ← parseSpaces1 r5
  let (h, r7) ← parseField (fun n => decide (n ≤ 23)) (fun _ => true) r6
  let r8 ← expectChar ':' r7
  let (mi, r9) ← parseField (fun n => decide (n ≤ 59)) (fun _ => true) r8
  if r9 = [] ∧ 1 ≤ y ∧ d ≤ daysInMonth y mo then
    some (y, mo, d, h, mi)
  else none

def pad2 (n : Nat) : String := if n < 10 then "0" ++ toString n else toString n

def pad4 (n : Nat) : String :=
  if n < 10 then "000" ++ toString n
  else if n < 100 then "00" ++ toString n
  else if n < 1000 then "0" ++ toString n
  else toString n

/-- `reformat_time(time_str)` from the source: parse with pattern
`"%Y-%m-%d %H:%M"`, then render with `"%m-%d-%Y %H:%M"`; `none` models
the `ValueError` raised on non-matching input. -/
def reformat_time (time_str : String) : Option String :=
  (parse_time time_str).map fun (y, mo, d, h, mi) =>
    pad2 mo ++ "-" ++ pad2 d ++ "-" ++ pad4 y ++ " " ++ pad2 h ++ ":" ++ pad2 mi

/-- A record offends validation when its key set differs from the
template's or some template key has a mismatching value kind. -/
def offends (tmpl : Record) (tkeys : List String) (e : Record) : Bool :=
  !(keysMatch e tkeys) || (checkTypes e tmpl tkeys).isSome

/-- Whether a single template key mismatches between record and template. -/
def mismatchAt (e tmpl : Record) (k : String) : Bool :=
  match lookup k e, lookup k tmpl with
  | some v, some tv => if kindOf v = kindOf tv then false else true
  | _, _ => true

/-- A record with all four keys but two kind mismatches: `artistName`
holds an integer and `msPlayed` holds a string. -/
def c5rec : Record :=
  [("endTime", .str "2023-01-01 10:00"), ("artistName", .int 7),
   ("trackName", .str "t"), ("msPlayed", .str "x")]

/-- The string a value must be for `strptime`; any other value raises. -/
def asStr : JValue → Option String
  | .str s => some s
  | _ => none

/-- The loop body of `display_content` on one entry:
`entry["endTime"] = reformat_time(entry["endTime"])` then
`entry["msPlayed"] = ms_to_min(entry["msPlayed"])`, both in-place
overwrites of the same dictionary. -/
def normalizeEntry (e : Record) : Option Record := do
  let tVal ← lookup "endTime" e
  let t ← asStr tVal
  let td ← reformat_time t
  let e1 := setField e "endTime" (.str td)
  let v ← lookup "msPlayed" e1
  let n ← asNum v
  some (setField e1 "msPlayed" (.str (ms_to_min n)))

/-- The rewriting loop of `display_content` over the whole sequence; the
result is the state of the records when the window opens, `none` the
`ValueError` escaping from `reformat_time`. -/
def display_transform (content : List Record) : Option (List Record) :=
  mapOrFail normalizeEntry content

/-- Python `str()` of a value interpolated into an f-string. -/
def jstr : JValue → String
  | .str s => s
  | .int n => toString n
  | .bool b => if b then "True" else "False"
  | .null => "None"

/-- One section body of the report: the writes of
`file.write(f"  {index + 1}. {track} - {count}\n")` starting at `index = i`. -/
def report_lines (render : Int → String) : Nat → List (JValue × Int) → String
  | _, [] => ""
  | i, (k, v) :: rest =>
    "  " ++ toString (i + 1) ++ ". " ++ jstr k ++ " - " ++ render v ++ "\n"
      ++ report_lines render (i + 1) rest

/-- The full content written to `stats.txt` by `main`. -/
def report_text (freq pt ar : List (JValue × Int)) : String :=
  "Top 10 Most Played:\n" ++ report_lines (fun c => toString c) 0 freq
    ++ "\nTop 10 Most Played by Playtime:\n" ++ report_lines ms_to_min 0 pt
    ++ "\nTop 10 Artist by Playtime:\n" ++ report_lines ms_to_min 0 ar

/-- `get_data(file_path)`: `None` on read failure, `None` on empty or
invalid content, the content itself otherwise.  The file read is the
excluded collaborator, so its outcome is the argument. -/
def get_data (raw : Option (List Record)) : Option (List Record) :=
  match raw with
  | none => none
  | some content =>
    if content.isEmpty then none
    else if (validate_content content TEMPLATE).ok then some content
    else none

/-- Observable outcome of one run of `main`. -/
inductive RunResult where
  | exitNoContent
  | formatCrash (report : String)
  | success (report : String)
deriving DecidableEq

/-- `main()` after argument parsing: load and validate, and on success
compute the three rankings with the default `top_n = 10`, write
`stats.txt`, then run the display rewriting.  `exitNoContent` is the
`exit(1)` branch; `formatCrash` is an uncaught `ValueError` from
`reformat_time` inside `display_content`, carrying the report that was
already written; the outer `none` is a crash in the aggregations, which
cannot occur on validated content. -/
def main_run (raw : Option (List Record)) : Option RunResult :=
  match get_data raw with
  | none => some .exitNoContent
  | some content =>
    match most_played_freq content 10, most_played_by_playtime content 10,
        top_artist_by_playtime content 10 with
    | some top_freq, some top_playtime, some top_artist =>
      let rep := report_text top_freq top_playtime top_artist
      match display_transform content with
      | some _ => some (.success rep)
      | none => some (.formatCrash rep)
    | _, _, _ => none

/-- How one record looks after the display-stage rewriting: `endTime`
replaced by the reformatted timestamp, `msPlayed` replaced by the
duration string, `artistName` and `trackName` untouched. -/
def RelNorm (e o : Record) : Prop :=
  ∃ t td v n,
    lookup "endTime" e = some (.str t) ∧ reformat_time t = some td ∧
    lookup "msPlayed" e = some v ∧ asNum v = some n ∧
    lookup "endTime" o = some (.str td) ∧
    lookup "msPlayed" o = some (.str (ms_to_min n)) ∧
    lookup "artistName" o = lookup "artistName" e ∧
    lookup "trackName" o = lookup "trackName" e

/-- A validated record whose timestamp parses, for exercising the
display rewriting. -/
def c3rec : Record :=
  [("endTime", .str "2023-01-05 14:30"), ("artistName", .str "artistX"),
   ("trackName", .str "trackA"), ("msPlayed", .int 30000)]

/-- The state of `c3rec` after `display_content` ran over it. -/
def c3out : Record :=
  [("endTime", .str "01-05-2023 14:30"), ("artistName", .str "artistX"),
   ("trackName", .str "trackA"), ("msPlayed", .str "0m 30s")]

/-- A record that validates but whose timestamp cannot be reformatted. -/
def badTimeRec : Record :=
  [("endTime", .str "garbage"), ("artistName", .str "a"),
   ("trackName", .str "t"), ("msPlayed", .int 1000)]

/-- A record missing the `msPlayed` field. -/
def missingMsRec : Record :=
  [("endTime", .str "2023-01-01 10:00"), ("artistName", .str "a"),
   ("trackName", .str "t")]

/-- One report line exactly as the specification words it:
`toString rank ++ ". " ++ key ++ " - " ++ value`. -/
def spec_line (rank : Nat) (key value : String) : String :=
  toString rank ++ ". " ++ key ++ " - " ++ value

/-- A section body built from the specification's line template, ranks
starting at `start + 1`. -/
def section_body_spec (render : Int → String) (start : Nat)
    (r : List (JValue × Int)) : String :=
  ((List.enumFrom start r).map fun p =>
    spec_line (p.1 + 1) (jstr p.2.1) (render p.2.2) ++ "\n").foldr (· ++ ·) ""

/-- The three labeled sections as the specification words them, with
entry lines exactly of the shape `"{rank}. {key} - {value}"`. -/
def report_text_spec (freq pt ar : List (JValue × Int)) : String :=
  "Top 10 Most Played:\n" ++ section_body_spec (fun c => toString c) 0 freq
    ++ "\nTop 10 Most Played by Playtime:\n" ++ section_body_spec ms_to_min 0 pt
    ++ "\nTop 10 Artist by Playtime:\n" ++ section_body_spec ms_to_min 0 ar

/-- The amended line shape: a two-space indent before the rank. -/
def indented_line (rank : Nat) (key value : String) : String :=
  "  " ++ spec_line rank key value

def section_body_indented (render : Int → String) (start : Nat)
    (r : List (JValue × Int)) : String :=
  ((List.enumFrom start r).map fun p =>
    indented_line (p.1 + 1) (jstr p.2.1) (render p.2.2) ++ "\n").foldr (· ++ ·) ""

/-- The three labeled sections with the amended, indented line shape. -/
def report_text_indented (freq pt ar : List (JValue × Int)) : String :=
  "Top 10 Most Played:\n" ++ section_body_indented (fun c => toString c) 0 freq
    ++ "\nTop 10 Most Played by Playtime:\n" ++ section_body_indented ms_to_min 0 pt
    ++ "\nTop 10 Artist by Playtime:\n" ++ section_body_indented ms_to_min 0 ar

-- === Theorems ==============================================================

-- Basic facts about `lookup` and key sets.
theorem lookup_isSome_of_mem_keys {k : String} {e : Record}
    (h : k ∈ e.map Prod.fst) : ∃ v, lookup k e = some v := by
  induction e with
  | nil => simp at h
  | cons p rest ih =>
    simp only [List.map_cons, List.mem_cons] at h
    by_cases hk : p.1 = k
    · exact ⟨p.2, by simp [lookup, hk]⟩
    · rcases h with h | h
      · exact absurd h.symm hk
      · rcases ih h with ⟨v, hv⟩
        exact ⟨v, by simp [lookup, hk, hv]⟩

theorem validateFrom_ok {tmpl : Record} {tkeys : List String} :
    ∀ (content : List Record) (i : Nat),
      (validateFrom tmpl tkeys i content).ok = true →
      ∀ e ∈ content, keysMatch e tkeys = true ∧ checkTypes e tmpl tkeys = none := by
  intro content
  induction content with
  | nil => intro i _ e he; simp at he
  | cons c cs ih =>
    intro i hok e he
    by_cases hkm : keysMatch c tkeys
    · rcases hct : checkTypes c tmpl tkeys with _ | k
      · rcases List.mem_cons.mp he with rfl | he'
        · exact ⟨hkm, hct⟩
        · apply ih (i + 1) _ e he'
          simpa [validateFrom, hkm, hct] using hok
      · simp [validateFrom, hkm, hct] at hok
    · simp [validateFrom, hkm] at hok

theorem checkTypes_none_kinds {e tmpl : Record} :
    ∀ {tkeys : List String}, checkTypes e tmpl tkeys = none →
      ∀ k ∈ tkeys, ∀ v tv, lookup k e = some v → lookup k tmpl = some tv →
        kindOf v = kindOf tv := by
  intro tkeys
  induction tkeys with
  | nil => intro _ k hk; simp at hk
  | cons k0 rest ih =>
    intro h k hk v tv hv htv
    rcases he0 : lookup k0 e with _ | v0 <;> rcases ht0 : lookup k0 tmpl with _ | tv0 <;>
      simp [checkTypes, he0, ht0] at h
    by_cases hkind : kindOf v0 = kindOf tv0
    · rw [if_pos hkind] at h
      rcases List.mem_cons.mp hk with rfl | hk'
      · rw [he0] at hv; rw [ht0] at htv
        cases hv; cases htv; exact hkind
      · exact ih h k hk' v tv hv htv
    · rw [if_neg hkind] at h; cases h

theorem addTo_map_fst (acc : List (JValue × Int)) (k : JValue) (v : Int) :
    (addTo acc k v).map Prod.fst = insertKey (acc.map Prod.fst) k := by
  induction acc with
  | nil => simp [addTo, insertKey]
  | cons p rest ih =>
    by_cases hk : p.1 = k
    · subst hk; simp [addTo, insertKey]
    · have hk' : ¬ k = p.1 := fun h => hk h.symm
      simp only [addTo, if_neg hk, List.map_cons, ih, insertKey, List.mem_cons, hk']
      by_cases hmem : k ∈ rest.map Prod.fst <;> simp [hmem]

theorem tally_foldl_keys (kvs : List (JValue × Int)) :
    ∀ acc : List (JValue × Int),
      ((kvs.foldl (fun acc kv => addTo acc kv.1 kv.2) acc).map Prod.fst) =
        (kvs.map Prod.fst).foldl insertKey (acc.map Prod.fst) := by
  induction kvs with
  | nil => intro acc; rfl
  | cons kv rest ih =>
    intro acc
    simp only [List.foldl_cons, List.map_cons]
    rw [ih, addTo_map_fst]

theorem foldl_insertKey_nodup (ks : List JValue) :
    ∀ l : List JValue, l.Nodup → (ks.foldl insertKey l).Nodup := by
  induction ks with
  | nil => intro l hl; exact hl
  | cons k rest ih =>
    intro l hl
    simp only [List.foldl_cons]
    apply ih
    by_cases hk : k ∈ l
    · simpa [insertKey, hk] using hl
    · simp only [insertKey, if_neg hk]
      exact List.Nodup.append hl (List.nodup_singleton k)
        (by simpa [List.disjoint_singleton] using hk)

theorem foldl_insertKey_toFinset (ks : List JValue) :
    ∀ l : List JValue, (ks.foldl insertKey l).toFinset = l.toFinset ∪ ks.toFinset := by
  induction ks with
  | nil => intro l; simp
  | cons k rest ih =>
    intro l
    simp only [List.foldl_cons, ih, List.toFinset_cons]
    by_cases hk : k ∈ l
    · have : k ∈ l.toFinset := List.mem_toFinset.mpr hk
      simp only [insertKey, if_pos hk]
      rw [Finset.union_insert, Finset.insert_eq_self.mpr (Finset.mem_union_left _ this)]
    · simp only [insertKey, if_neg hk]
      rw [List.toFinset_append]
      ext a
      simp only [Finset.mem_union, Finset.mem_insert, List.mem_toFinset, List.mem_singleton]
      tauto

theorem tallyKV_length (kvs : List (JValue × Int)) :
    (tallyKV kvs).length = (kvs.map Prod.fst).toFinset.card := by
  have hkeys : (tallyKV kvs).map Prod.fst = (kvs.map Prod.fst).foldl insertKey [] := by
    simpa using tally_foldl_keys kvs []
  have hnd : ((kvs.map Prod.fst).foldl insertKey []).Nodup :=
    foldl_insertKey_nodup _ [] (List.nodup_nil)
  have hfs : ((kvs.map Prod.fst).foldl insertKey []).toFinset = (kvs.map Prod.fst).toFinset := by
    simpa using foldl_insertKey_toFinset (kvs.map Prod.fst) []
  calc (tallyKV kvs).length = ((tallyKV kvs).map Prod.fst).length := by simp
    _ = ((kvs.map Prod.fst).foldl insertKey []).length := by rw [hkeys]
    _ = ((kvs.map Prod.fst).foldl insertKey []).toFinset.card :=
        (List.toFinset_card_of_nodup hnd).symm
    _ = (kvs.map Prod.fst).toFinset.card := by rw [hfs]

theorem length_insertDesc (x : JValue × Int) :
    ∀ l : List (JValue × Int), (insertDesc x l).length = l.length + 1 := by
  intro l
  induction l with
  | nil => rfl
  | cons y ys ih =>
    by_cases h : x.2 < y.2 <;> simp [insertDesc, h, ih]

theorem length_sortDesc (l : List (JValue × Int)) : (sortDesc l).length = l.length := by
  induction l with
  | nil => rfl
  | cons x xs ih => simp [sortDesc, length_insertDesc, ih]

theorem mem_insertDesc {x a : JValue × Int} :
    ∀ {l : List (JValue × Int)}, a ∈ insertDesc x l → a = x ∨ a ∈ l := by
  intro l
  induction l with
  | nil => intro h; simpa [insertDesc] using h
  | cons y ys ih =>
    intro h
    by_cases hlt : x.2 < y.2
    · simp only [insertDesc, if_pos hlt, List.mem_cons] at h
      rcases h with rfl | h
      · exact Or.inr (List.mem_cons_self _ _)
      · rcases ih h with h | h
        · exact Or.inl h
        · exact Or.inr (List.mem_cons_of_mem _ h)
    · simp only [insertDesc, if_neg hlt, List.mem_cons] at h
      rcases h with rfl | h
      · exact Or.inl rfl
      · exact Or.inr (by simpa using h)

theorem pairwise_insertDesc {x : JValue × Int} :
    ∀ {l : List (JValue × Int)}, l.Pairwise (fun a b => b.2 ≤ a.2) →
      (insertDesc x l).Pairwise (fun a b => b.2 ≤ a.2) := by
  intro l
  induction l with
  | nil => intro _; simp [insertDesc]
  | cons y ys ih =>
    intro h
    rw [List.pairwise_cons] at h
    obtain ⟨hy, hys⟩ := h
    by_cases hlt : x.2 < y.2
    · rw [insertDesc, if_pos hlt, List.pairwise_cons]
      refine ⟨fun b hb => ?_, ih hys⟩
      rcases mem_insertDesc hb with rfl | hb'
      · exact le_of_lt hlt
      · exact hy b hb'
    · rw [insertDesc, if_neg hlt, List.pairwise_cons]
      refine ⟨fun b hb => ?_, List.pairwise_cons.mpr ⟨hy, hys⟩⟩
      rcases List.mem_cons.mp hb with rfl | hb'
      · exact le_of_not_lt hlt
      · exact le_trans (hy b hb') (le_of_not_lt hlt)

theorem pairwise_sortDesc (l : List (JValue × Int)) :
    (sortDesc l).Pairwise (fun a b => b.2 ≤ a.2) := by
  induction l with
  | nil => simp [sortDesc]
  | cons x xs ih => exact pairwise_insertDesc ih

theorem keysMatch_iff {e : Record} {tkeys : List String} :
    keysMatch e tkeys = true ↔
      ((∀ k ∈ e.map Prod.fst, k ∈ tkeys) ∧ (∀ k ∈ tkeys, k ∈ e.map Prod.fst)) := by
  simp [keysMatch]

theorem kindOf_eq_kstr {v : JValue} (h : kindOf v = Kind.kstr) : ∃ s, v = .str s := by
  cases v <;> first | exact ⟨_, rfl⟩ | simp [kindOf] at h

theorem kindOf_eq_kint {v : JValue} (h : kindOf v = Kind.kint) : ∃ n, v = .int n := by
  cases v <;> first | exact ⟨_, rfl⟩ | simp [kindOf] at h

theorem field_kind_of_valid {e : Record} (hkm : keysMatch e (tmpl0.map Prod.fst) = true)
    (hct : checkTypes e tmpl0 (tmpl0.map Prod.fst) = none)
    {k : String} {tv : JValue} (hk : k ∈ tmpl0.map Prod.fst) (htv : lookup k tmpl0 = some tv) :
    ∃ v, lookup k e = some v ∧ kindOf v = kindOf tv := by
  have hmem : k ∈ e.map Prod.fst := (keysMatch_iff.mp hkm).2 k hk
  obtain ⟨v, hv⟩ := lookup_isSome_of_mem_keys hmem
  exact ⟨v, hv, checkTypes_none_kinds hct k hk v tv hv htv⟩

/-- A record sequence accepted by `validate_content` against `TEMPLATE`
has, in every record, exactly the four schema keys, string values at
`endTime`, `artistName`, `trackName` and an integer value at `msPlayed`. -/
theorem validate_ok_fields {content : List Record}
    (h : (validate_content content TEMPLATE).ok = true) :
    ∀ e ∈ content,
      keysMatch e (tmpl0.map Prod.fst) = true ∧
      (∃ s, lookup "endTime" e = some (.str s)) ∧
      (∃ s, lookup "artistName" e = some (.str s)) ∧
      (∃ s, lookup "trackName" e = some (.str s)) ∧
      (∃ n, lookup "msPlayed" e = some (.int n)) := by
  intro e he
  cases content with
  | nil => cases he
  | cons c cs =>
    have hrun : (validateFrom tmpl0 (tmpl0.map Prod.fst) 0 (c :: cs)).ok = true := h
    obtain ⟨hkm, hct⟩ := validateFrom_ok (c :: cs) 0 hrun e he
    refine ⟨hkm, ?_, ?_, ?_, ?_⟩
    · obtain ⟨v, hv, hkind⟩ := field_kind_of_valid hkm hct
        (k := "endTime") (by simp [tmpl0]) rfl
      obtain ⟨s, rfl⟩ := kindOf_eq_kstr hkind
      exact ⟨s, hv⟩
    · obtain ⟨v, hv, hkind⟩ := field_kind_of_valid hkm hct
        (k := "artistName") (by simp [tmpl0]) rfl
      obtain ⟨s, rfl⟩ := kindOf_eq_kstr hkind
      exact ⟨s, hv⟩
    · obtain ⟨v, hv, hkind⟩ := field_kind_of_valid hkm hct
        (k := "trackName") (by simp [tmpl0]) rfl
      obtain ⟨s, rfl⟩ := kindOf_eq_kstr hkind
      exact ⟨s, hv⟩
    · obtain ⟨v, hv, hkind⟩ := field_kind_of_valid hkm hct
        (k := "msPlayed") (by simp [tmpl0]) rfl
      obtain ⟨n, rfl⟩ := kindOf_eq_kint hkind
      exact ⟨n, hv⟩

/-- C1 (counterexample): the sequence `[negRec]` passes `validate_content`
against `TEMPLATE` although its `msPlayed` value is `-5 < 0`; validation
checks only the value kind, so the claimed invariant `msPlayed ≥ 0` fails. -/
theorem c1_counterexample :
    (validate_content [negRec] TEMPLATE).ok = true ∧
    lookup "msPlayed" negRec = some (.int (-5)) ∧ ¬ (0 ≤ (-5 : Int)) :=
  ⟨rfl, rfl, by decide⟩

/-- C1 (amended): every record of a sequence accepted by `validate_content`
against `TEMPLATE` has exactly the four fields `endTime`, `artistName`,
`trackName`, `msPlayed` (no missing and no extra fields), with string
values at the three text fields and an integer value at `msPlayed`; no
sign condition on `msPlayed` is guaranteed. -/
theorem c1_validation_guarantees (content : List Record)
    (h : (validate_content content TEMPLATE).ok = true) :
    ∀ e ∈ content,
      keysMatch e ["endTime", "artistName", "trackName", "msPlayed"] = true ∧
      (∃ s, lookup "endTime" e = some (.str s)) ∧
      (∃ s, lookup "artistName" e = some (.str s)) ∧
      (∃ s, lookup "trackName" e = some (.str s)) ∧
      (∃ n, lookup "msPlayed" e = some (.int n)) :=
  validate_ok_fields h

/-- C1 witness: the amended guarantee instantiated on a concrete
validated sequence. -/
theorem c1_validation_guarantees_witness :
    (validate_content c2content TEMPLATE).ok = true ∧
    (∃ n, lookup "msPlayed" recA1 = some (.int n)) :=
  ⟨rfl, (c1_validation_guarantees c2content rfl recA1 (by simp [c2content])).2.2.2.2⟩

/-- C2: on the three-record input (trackA/artistX/30000, trackA/artistX/30000,
trackB/artistY/600000) with `top_n = 2`, the three aggregations return
exactly the rankings stated in the specification. -/
theorem c2_end_to_end :
    most_played_freq c2content 2 = some [(.str "trackA", 2), (.str "trackB", 1)] ∧
    most_played_by_playtime c2content 2 =
      some [(.str "trackB", 600000), (.str "trackA", 60000)] ∧
    top_artist_by_playtime c2content 2 =
      some [(.str "artistY", 600000), (.str "artistX", 60000)] :=
  ⟨rfl, rfl, rfl⟩

/-- C7: a record sequence containing a record whose `msPlayed` value is
boolean-flavored never validates: the kind comparison is exact, so a
boolean is not accepted where the template expects an integer. -/
theorem c7_bool_rejected (content : List Record) (e : Record) (b : Bool)
    (he : e ∈ content) (hb : lookup "msPlayed" e = some (.bool b)) :
    (validate_content content TEMPLATE).ok = false := by
  by_contra hne
  have hok : (validate_content content TEMPLATE).ok = true := by
    cases h : (validate_content content TEMPLATE).ok
    · exact absurd h hne
    · rfl
  obtain ⟨n, hn⟩ := (validate_ok_fields hok e he).2.2.2.2
  rw [hb] at hn
  simp at hn

/-- C7 witness: a concrete sequence with `msPlayed = True` is rejected. -/
theorem c7_bool_rejected_witness :
    (validate_content [boolRec] TEMPLATE).ok = false :=
  c7_bool_rejected [boolRec] boolRec true (by simp) rfl

theorem mapOrFail_eq_filterMap {α β : Type} {f : α → Option β} :
    ∀ {l : List α}, (∀ x ∈ l, (f x).isSome) → mapOrFail f l = some (l.filterMap f) := by
  intro l
  induction l with
  | nil => intro _; rfl
  | cons x xs ih =>
    intro h
    obtain ⟨y, hy⟩ := Option.isSome_iff_exists.mp (h x (List.mem_cons_self x xs))
    rw [mapOrFail, hy, ih (fun a ha => h a (List.mem_cons_of_mem _ ha))]
    simp [List.filterMap_cons, hy]

theorem extractKV_eq_some {field : String} {e : Record} {k v : JValue} {n : Int}
    (hk : lookup field e = some k) (hv : lookup "msPlayed" e = some v)
    (hn : asNum v = some n) : extractKV field e = some (k, n) := by
  simp [extractKV, hk, hv, hn]

theorem extracted_keys {field : String} :
    ∀ {content : List Record},
      (∀ e ∈ content, ∃ k n, lookup field e = some k ∧ extractKV field e = some (k, n)) →
      (content.filterMap (extractKV field)).map Prod.fst
        = content.filterMap (lookup field) := by
  intro content
  induction content with
  | nil => intro _; rfl
  | cons e rest ih =>
    intro h
    obtain ⟨k, n, hk, hkv⟩ := h e (List.mem_cons_self e rest)
    simp [List.filterMap_cons, hkv, hk,
      ih (fun a ha => h a (List.mem_cons_of_mem _ ha))]

/-- Shape of `take top_n` over the sorted tally: its length is `top_n`
capped at the number of distinct keys, and its scores are non-increasing. -/
theorem ranked_take_shape (kvs : List (JValue × Int)) (top_n : Nat) :
    ((sortDesc (tallyKV kvs)).take top_n).length
        = min top_n ((kvs.map Prod.fst).dedup).length ∧
    ((sortDesc (tallyKV kvs)).take top_n).Pairwise (fun a b => b.2 ≤ a.2) := by
  constructor
  · rw [List.length_take, length_sortDesc, tallyKV_length, List.card_toFinset]
  · exact List.Pairwise.sublist (List.take_sublist _ _) (pairwise_sortDesc _)

/-- C6: on any validated record sequence and any `top_n ≥ 1`, each of
the three aggregations succeeds and returns a ranking of length
`min top_n (distinct key count)` with non-increasing scores. -/
theorem c6_ranking_shape (content : List Record) (top_n : Nat)
    (hv : (validate_content content TEMPLATE).ok = true) (hn : 1 ≤ top_n) :
    ∃ r1 r2 r3,
      most_played_freq content top_n = some r1 ∧
      most_played_by_playtime content top_n = some r2 ∧
      top_artist_by_playtime content top_n = some r3 ∧
      r1.length = min top_n (distinctValues "trackName" content) ∧
      r2.length = min top_n (distinctValues "trackName" content) ∧
      r3.length = min top_n (distinctValues "artistName" content) ∧
      r1.Pairwise (fun a b => b.2 ≤ a.2) ∧
      r2.Pairwise (fun a b => b.2 ≤ a.2) ∧
      r3.Pairwise (fun a b => b.2 ≤ a.2) := by
  have hfields := validate_ok_fields hv
  have htrack : ∀ e ∈ content, (lookup "trackName" e).isSome := by
    intro e he
    obtain ⟨s, hs⟩ := (hfields e he).2.2.2.1
    simp [hs]
  have hT : ∀ e ∈ content,
      ∃ k n, lookup "trackName" e = some k ∧ extractKV "trackName" e = some (k, n) := by
    intro e he
    obtain ⟨s, hs⟩ := (hfields e he).2.2.2.1
    obtain ⟨n, hms⟩ := (hfields e he).2.2.2.2
    exact ⟨.str s, n, hs, extractKV_eq_some hs hms rfl⟩
  have hA : ∀ e ∈ content,
      ∃ k n, lookup "artistName" e = some k ∧ extractKV "artistName" e = some (k, n) := by
    intro e he
    obtain ⟨s, hs⟩ := (hfields e he).2.2.1
    obtain ⟨n, hms⟩ := (hfields e he).2.2.2.2
    exact ⟨.str s, n, hs, extractKV_eq_some hs hms rfl⟩
  have hplayT : ∀ e ∈ content, (extractKV "trackName" e).isSome := by
    intro e he
    obtain ⟨k, n, _, hkv⟩ := hT e he
    simp [hkv]
  have hplayA : ∀ e ∈ content, (extractKV "artistName" e).isSome := by
    intro e he
    obtain ⟨k, n, _, hkv⟩ := hA e he
    simp [hkv]
  refine ⟨(sortDesc (tallyKV ((content.filterMap (lookup "trackName")).map
            fun k => (k, 1)))).take top_n,
          (sortDesc (tallyKV (content.filterMap (extractKV "trackName")))).take top_n,
          (sortDesc (tallyKV (content.filterMap (extractKV "artistName")))).take top_n,
          ?_, ?_, ?_, ?_, ?_, ?_, ?_, ?_, ?_⟩
  · rw [most_played_freq, mapOrFail_eq_filterMap htrack, Option.map_some']
  · rw [most_played_by_playtime, mapOrFail_eq_filterMap hplayT, Option.map_some']
  · rw [top_artist_by_playtime, mapOrFail_eq_filterMap hplayA, Option.map_some']
  · have hmap : (((content.filterMap (lookup "trackName")).map
        fun k => ((k : JValue), (1 : Int))).map Prod.fst)
        = content.filterMap (lookup "trackName") := by
      rw [List.map_map, show (Prod.fst ∘ fun k : JValue => (k, (1 : Int))) = id from rfl,
        List.map_id]
    rw [(ranked_take_shape _ top_n).1, hmap]
    rfl
  · rw [(ranked_take_shape _ top_n).1, extracted_keys hT]
    rfl
  · rw [(ranked_take_shape _ top_n).1, extracted_keys hA]
    rfl
  · exact (ranked_take_shape _ top_n).2
  · exact (ranked_take_shape _ top_n).2
  · exact (ranked_take_shape _ top_n).2

/-- C6 witness: the shape guarantee instantiated on the concrete
three-record sequence with `top_n = 2`. -/
theorem c6_ranking_shape_witness :
    (validate_content c2content TEMPLATE).ok = true ∧ 1 ≤ 2 ∧
    (∃ r1 r2 r3,
      most_played_freq c2content 2 = some r1 ∧
      most_played_by_playtime c2content 2 = some r2 ∧
      top_artist_by_playtime c2content 2 = some r3 ∧
      r1.length = min 2 (distinctValues "trackName" c2content) ∧
      r2.length = min 2 (distinctValues "trackName" c2content) ∧
      r3.length = min 2 (distinctValues "artistName" c2content) ∧
      r1.Pairwise (fun a b => b.2 ≤ a.2) ∧
      r2.Pairwise (fun a b => b.2 ≤ a.2) ∧
      r3.Pairwise (fun a b => b.2 ≤ a.2)) :=
  ⟨rfl, by decide, c6_ranking_shape c2content 2 rfl (by decide)⟩

/-- C8: timestamp reformatting maps `"2023-01-05 14:30"` to
`"01-05-2023 14:30"`, rejects the slash-separated variant, and succeeds
exactly on the inputs the pattern parser accepts — there is no fallback
value on failure. -/
theorem c8_reformat_strict :
    reformat_time "2023-01-05 14:30" = some "01-05-2023 14:30" ∧
    reformat_time "2023/01/05 14:30" = none ∧
    ∀ s : String, (reformat_time s).isSome = (parse_time s).isSome :=
  ⟨rfl, rfl, fun s => by cases hp : parse_time s <;> simp [reformat_time, hp]⟩

/-- C10: `ms_to_min` is total on all integers; on a negative input the
minutes component is negative while the seconds component stays within
`[0, 59]` under floor-division semantics, `ms_to_min (-1)` renders as
`"-1m 59s"`, and validation accepts a negative `msPlayed`. -/
theorem c10_ms_to_min_total (ms : Int) (h : ms < 0) :
    Int.fdiv ms 60000 < 0 ∧
    0 ≤ Int.fdiv (Int.fmod ms 60000) 1000 ∧
    Int.fdiv (Int.fmod ms 60000) 1000 ≤ 59 ∧
    ms_to_min ms = toString (Int.fdiv ms 60000) ++ "m "
      ++ toString (Int.fdiv (Int.fmod ms 60000) 1000) ++ "s" ∧
    ms_to_min (-1) = "-1m 59s" ∧
    (validate_content [negRec] TEMPLATE).ok = true := by
  have h60 : (0 : Int) < 60000 := by decide
  have hfd : Int.fdiv ms 60000 = ms / 60000 := Int.fdiv_eq_ediv ms (by decide)
  have hfm : Int.fmod ms 60000 = ms % 60000 := Int.fmod_eq_emod ms (by decide)
  have hfd2 : Int.fdiv (Int.fmod ms 60000) 1000 = (ms % 60000) / 1000 := by
    rw [hfm]; exact Int.fdiv_eq_ediv _ (by decide)
  refine ⟨?_, ?_, ?_, rfl, rfl, rfl⟩
  · rw [hfd]; exact Int.ediv_neg' h h60
  · rw [hfd2]
    exact Int.ediv_nonneg (Int.emod_nonneg ms (by decide)) (by decide)
  · rw [hfd2]
    have hlt : ms % 60000 ≤ 59999 := by
      have := Int.emod_lt_of_pos ms h60
      omega
    calc (ms % 60000) / 1000 ≤ 59999 / 1000 := Int.ediv_le_ediv (by decide) hlt
      _ = 59 := by decide

/-- C10 witness: the totality statement instantiated at `ms = -1`. -/
theorem c10_ms_to_min_total_witness :
    (-1 : Int) < 0 ∧
    (Int.fdiv (-1) 60000 < 0 ∧
     0 ≤ Int.fdiv (Int.fmod (-1) 60000) 1000 ∧
     Int.fdiv (Int.fmod (-1) 60000) 1000 ≤ 59 ∧
     ms_to_min (-1) = toString (Int.fdiv (-1) 60000) ++ "m "
       ++ toString (Int.fdiv (Int.fmod (-1) 60000) 1000) ++ "s" ∧
     ms_to_min (-1) = "-1m 59s" ∧
     (validate_content [negRec] TEMPLATE).ok = true) :=
  ⟨by decide, c10_ms_to_min_total (-1) (by decide)⟩

theorem validateFrom_append_of_offend {tmpl : Record} {tkeys : List String} :
    ∀ (l : List Record) (i : Nat), (∃ e ∈ l, offends tmpl tkeys e = true) →
      ∀ suf, validateFrom tmpl tkeys i (l ++ suf) = validateFrom tmpl tkeys i l := by
  intro l
  induction l with
  | nil =>
    intro i h suf
    obtain ⟨e, he, _⟩ := h
    cases he
  | cons c cs ih =>
    intro i h suf
    by_cases hkm : keysMatch c tkeys
    · rcases hct : checkTypes c tmpl tkeys with _ | k
      · have hrest : ∃ e ∈ cs, offends tmpl tkeys e = true := by
          obtain ⟨e, he, hoff⟩ := h
          rcases List.mem_cons.mp he with rfl | he'
          · rw [offends, hkm, hct] at hoff
            simp at hoff
          · exact ⟨e, he', hoff⟩
        simp only [List.cons_append, validateFrom, hkm, hct, if_true]
        exact ih (i + 1) hrest suf
      · simp [validateFrom, hkm, hct]
    · simp [validateFrom, hkm]

theorem checkTypes_eq_find {e tmpl : Record} :
    ∀ tkeys : List String,
      checkTypes e tmpl tkeys = tkeys.find? (mismatchAt e tmpl) := by
  intro tkeys
  induction tkeys with
  | nil => rfl
  | cons k rest ih =>
    rw [checkTypes, List.find?]
    rcases hk : lookup k e with _ | v <;> rcases ht : lookup k tmpl with _ | tv <;>
      simp only [mismatchAt, hk, ht] <;>
      first
        | rfl
        | (by_cases hkind : kindOf v = kindOf tv <;> simp [hkind, ih])

/-- C5 (amended): validation is fail-fast per record — everything after
the first offending record is ignored — and fail-fast per field inside
that record too: the type check returns the first mismatching template
key and examines none after it, rather than checking every field. -/
theorem c5_fail_fast :
    (∀ (content suf : List Record) (e : Record), e ∈ content →
        offends tmpl0 (tmpl0.map Prod.fst) e = true →
        validate_content (content ++ suf) TEMPLATE = validate_content content TEMPLATE) ∧
    (∀ (e : Record) (tkeys : List String),
        checkTypes e tmpl0 tkeys = tkeys.find? (mismatchAt e tmpl0)) := by
  constructor
  · intro content suf e he hoff
    cases content with
    | nil => cases he
    | cons c cs =>
      show validateFrom tmpl0 (tmpl0.map Prod.fst) 0 ((c :: cs) ++ suf)
          = validateFrom tmpl0 (tmpl0.map Prod.fst) 0 (c :: cs)
      exact validateFrom_append_of_offend (c :: cs) 0 ⟨e, he, hoff⟩ suf
  · intro e tkeys
    exact checkTypes_eq_find tkeys

/-- C5 (counterexample): on a record where both `artistName` and
`msPlayed` mismatch the template kinds, validation emits exactly one
diagnostic — for `artistName`, the first mismatch in key order — so the
check is not exhaustive across the fields of the offending record. -/
theorem c5_counterexample :
    (validate_content [c5rec] TEMPLATE).ok = false ∧
    (validate_content [c5rec] TEMPLATE).diags = [Diag.typeMismatch 0 "artistName"] ∧
    mismatchAt c5rec tmpl0 "artistName" = true ∧
    mismatchAt c5rec tmpl0 "msPlayed" = true :=
  ⟨rfl, rfl, rfl, rfl⟩

/-- C5 witness: fail-fast instantiated concretely — appending a further
record after an offending one changes nothing in the outcome. -/
theorem c5_fail_fast_witness :
    offends tmpl0 (tmpl0.map Prod.fst) c5rec = true ∧
    validate_content ([c5rec] ++ [recB]) TEMPLATE = validate_content [c5rec] TEMPLATE :=
  ⟨rfl, c5_fail_fast.1 [c5rec] [recB] c5rec (by simp) rfl⟩

theorem lookup_setField_same (e : Record) (k : String) (v : JValue) :
    lookup k (setField e k v) = some v := by
  induction e with
  | nil => simp [setField, lookup]
  | cons p rest ih =>
    by_cases hk : p.1 = k
    · simp [setField, hk, lookup]
    · simp [setField, hk, lookup, ih]

theorem lookup_setField_other (e : Record) {k k' : String} (v : JValue) (h : k' ≠ k) :
    lookup k' (setField e k v) = lookup k' e := by
  induction e with
  | nil => simp [setField, lookup, Ne.symm h]
  | cons p rest ih =>
    by_cases hpk : p.1 = k
    · simp [setField, hpk, lookup, Ne.symm h]
    · simp [setField, hpk, lookup, ih]

theorem asStr_eq_some {v : JValue} {s : String} (h : asStr v = some s) : v = .str s := by
  cases v <;> simp_all [asStr]

theorem normalizeEntry_some {e out : Record} (h : normalizeEntry e = some out) :
    ∃ t td v n,
      lookup "endTime" e = some (.str t) ∧ reformat_time t = some td ∧
      lookup "msPlayed" e = some v ∧ asNum v = some n ∧
      out = setField (setField e "endTime" (.str td)) "msPlayed" (.str (ms_to_min n)) := by
  simp only [normalizeEntry, bind, Option.bind_eq_some, Option.some.injEq] at h
  obtain ⟨tv, htv, t, ht, td, htd, v, hv, n, hn, hout⟩ := h
  obtain rfl := asStr_eq_some ht
  rw [lookup_setField_other _ _ (by decide)] at hv
  exact ⟨t, td, v, n, htv, htd, hv, hn, hout.symm⟩

theorem mapOrFail_forall₂ {α β : Type} {f : α → Option β} :
    ∀ {l : List α} {out : List β}, mapOrFail f l = some out →
      List.Forall₂ (fun x y => f x = some y) l out := by
  intro l
  induction l with
  | nil =>
    intro out h
    injection h with h
    subst h
    exact List.Forall₂.nil
  | cons x xs ih =>
    intro out h
    rcases hfx : f x with _ | y <;> simp only [mapOrFail, hfx] at h
    · cases h
    · rcases hm : mapOrFail f xs with _ | ys <;> rw [hm] at h
      · cases h
      · simp only [Option.map_some', Option.some.injEq] at h
        subst h
        exact List.Forall₂.cons hfx (ih hm)

theorem normalizeEntry_relNorm {e o : Record} (h : normalizeEntry e = some o) :
    RelNorm e o := by
  obtain ⟨t, td, v, n, ht, htd, hv, hn, rfl⟩ := normalizeEntry_some h
  refine ⟨t, td, v, n, ht, htd, hv, hn, ?_, ?_, ?_, ?_⟩
  · rw [lookup_setField_other _ _ (by decide), lookup_setField_same]
  · rw [lookup_setField_same]
  · rw [lookup_setField_other _ _ (by decide), lookup_setField_other _ _ (by decide)]
  · rw [lookup_setField_other _ _ (by decide), lookup_setField_other _ _ (by decide)]

/-- C3 (counterexample): the display-stage rewriting mutates the records
in place — after it runs, the record's `endTime` text and integer
`msPlayed` are gone, replaced by the display strings, so normalization
does not leave the input records unchanged. -/
theorem c3_counterexample :
    (validate_content [c3rec] TEMPLATE).ok = true ∧
    display_transform [c3rec] = some [c3out] ∧
    lookup "endTime" c3out ≠ lookup "endTime" c3rec ∧
    lookup "msPlayed" c3out ≠ lookup "msPlayed" c3rec :=
  ⟨rfl, rfl, by decide, by decide⟩

/-- C3 (amended): the display-stage record rewriting overwrites each
record, one output per input: `endTime` becomes the reformatted
timestamp and `msPlayed` the duration string, while `artistName` and
`trackName` are preserved; the originals are not kept. -/
theorem c3_display_mutates (content out : List Record)
    (h : display_transform content = some out) :
    out.length = content.length ∧ List.Forall₂ RelNorm content out := by
  have hrel : List.Forall₂ RelNorm content out :=
    (mapOrFail_forall₂ h).imp (fun _ _ hx => normalizeEntry_relNorm hx)
  exact ⟨(List.Forall₂.length_eq hrel).symm, hrel⟩

/-- C3 witness: the rewriting description instantiated on a concrete
record. -/
theorem c3_display_mutates_witness :
    display_transform [c3rec] = some [c3out] ∧
    ([c3out].length = [c3rec].length ∧ List.Forall₂ RelNorm [c3rec] [c3out]) :=
  ⟨rfl, c3_display_mutates [c3rec] [c3out] rfl⟩

/-- C4 (counterexample): a record with an unparsable timestamp passes
validation, so the run writes the full report and only then crashes with
a FormatFailure inside the display stage — the report file content IS
written although a FormatFailure occurs on the run. -/
theorem c4_counterexample :
    (validate_content [badTimeRec] TEMPLATE).ok = true ∧
    reformat_time "garbage" = none ∧
    (∃ rep, main_run (some [badTimeRec]) = some (.formatCrash rep)) :=
  ⟨rfl, rfl, ⟨_, rfl⟩⟩

/-- C4 (amended): LoadFailure and SchemaMismatch are terminal before the
report stage — the run exits with no report written; a FormatFailure
still terminates the run, but it arises in the display stage after the
report was already fully written, and the crash carries that complete
report. -/
theorem c4_terminal_errors :
    main_run none = some RunResult.exitNoContent ∧
    (∀ content : List Record, (validate_content content TEMPLATE).ok = false →
        main_run (some content) = some RunResult.exitNoContent) ∧
    (∀ (raw : Option (List Record)) (rep : String),
        main_run raw = some (RunResult.formatCrash rep) →
        ∃ content f p a, get_data raw = some content ∧
          most_played_freq content 10 = some f ∧
          most_played_by_playtime content 10 = some p ∧
          top_artist_by_playtime content 10 = some a ∧
          rep = report_text f p a ∧ display_transform content = none) := by
  refine ⟨rfl, ?_, ?_⟩
  · intro content hv
    cases content with
    | nil => rfl
    | cons c cs =>
      have hg : get_data (some (c :: cs)) = none := by simp [get_data, hv]
      simp [main_run, hg]
  · intro raw rep h
    rcases hg : get_data raw with _ | content <;> simp only [main_run, hg] at h
    · exact absurd h (by simp)
    · rcases h1 : most_played_freq content 10 with _ | f <;>
        rcases h2 : most_played_by_playtime content 10 with _ | p <;>
        rcases h3 : top_artist_by_playtime content 10 with _ | a <;>
        simp only [h1, h2, h3] at h <;>
        try exact absurd h (by simp)
      rcases hd : display_transform content with _ | outl <;> simp only [hd] at h
      · simp only [Option.some.injEq, RunResult.formatCrash.injEq] at h
        exact ⟨content, f, p, a, rfl, h1, h2, h3, h.symm, hd⟩
      · exact absurd h (by simp)

/-- C4 witness: the specification's own scenario — a record missing
`msPlayed` fails validation and the run exits with no report. -/
theorem c4_terminal_errors_witness :
    (validate_content [missingMsRec] TEMPLATE).ok = false ∧
    main_run (some [missingMsRec]) = some RunResult.exitNoContent :=
  ⟨rfl, c4_terminal_errors.2.1 [missingMsRec] rfl⟩

theorem report_lines_eq_indented (render : Int → String) :
    ∀ (l : List (JValue × Int)) (i : Nat),
      report_lines render i l = section_body_indented render i l := by
  intro l
  induction l with
  | nil => intro i; rfl
  | cons kv rest ih =>
    intro i
    obtain ⟨k, v⟩ := kv
    show "  " ++ toString (i + 1) ++ ". " ++ jstr k ++ " - " ++ render v ++ "\n"
        ++ report_lines render (i + 1) rest
      = (indented_line (i + 1) (jstr k) (render v) ++ "\n")
        ++ section_body_indented render (i + 1) rest
    rw [ih]
    simp [indented_line, spec_line, String.append_assoc]

/-- C9 (counterexample): the entry lines the program writes are not
exactly `"{rank}. {key} - {value}"` — each carries a two-space indent —
so the report differs from the one built from the specification's exact
line template. -/
theorem c9_counterexample :
    report_text [(.str "trackA", 2)] [] [] ≠ report_text_spec [(.str "trackA", 2)] [] [] := by
  decide

/-- C9 (amended): for every triple of rankings the report consists of
exactly the three labeled sections in fixed order — counts, then track
playtime, then artist playtime, the latter two rendered through
`ms_to_min` — with 1-indexed ranks increasing by 1 and every entry line
of the shape `"  {rank}. {key} - {value}"` (two-space indent). -/
theorem c9_report_layout (freq pt ar : List (JValue × Int)) :
    report_text freq pt ar = report_text_indented freq pt ar := by
  simp [report_text, report_text_indented, report_lines_eq_indented]
